import Mathlib

/-!
Shallow embedding of the `open-nof1.ai` python service
(`python-service/trading_env.py` and `python-service/server.py`).

Numeric values are modelled by `ℚ` (idealised real arithmetic for the
python floats).  The only places where IEEE special values matter in the
source are modelled explicitly: a missing dictionary entry is `Option.none`,
a pandas NaN indicator is `none` / `RsiVal.nan`, and the `gain/loss`
division of `_calculate_rsi` is modelled with its IEEE outcomes
(`x/0 = +inf` giving RSI `100`, `0/0 = NaN` giving `RsiVal.nan`).
-/

set_option maxHeartbeats 1000000

/-- The mutable account state of `TradingEnv`: `self.balance`,
`self.position`, `self.entry_price`. -/
structure LedgerState where
  balance : ℚ
  position : ℚ
  entry_price : ℚ
deriving DecidableEq

/-- Constructor `TradingEnv.__init__`: `balance = initial_balance`, `position = 0.0`,
`entry_price = 0.0`. -/
def TradingEnv.initState (initial_balance : ℚ) : LedgerState :=
  { balance := initial_balance, position := 0, entry_price := 0 }

/-- Method `TradingEnv.reset`: sets `balance = initial_balance`, `position = 0.0`,
`entry_price = 0.0` (same state as construction). -/
def TradingEnv.reset (initial_balance : ℚ) : LedgerState :=
  TradingEnv.initState initial_balance

/-- The observation dictionary built by `TradingEnv._get_observation`.
Each key is optional: a key absent from the dictionary (the empty
observation returned on a fetch failure) or holding a pandas NaN is
modelled by `none`.  For `price`, the realizable `none` is the absent key
of the empty dictionary, so `dict.get("price", 0)` is `Option.getD · 0`;
for the indicator fields a stored NaN is also `none`, and every
comparison with it is false in python — the consumers below model that
explicitly. -/
structure Observation where
  price : Option ℚ
  ma_7 : Option ℚ
  ma_14 : Option ℚ
  rsi : Option ℚ
  balance : Option ℚ
  position : Option ℚ
  pnl : Option ℚ
deriving DecidableEq

/-- The empty dictionary `{}` returned by `_get_observation` when the
upstream fetch raises. -/
def emptyObservation : Observation :=
  { price := none, ma_7 := none, ma_14 := none, rsi := none,
    balance := none, position := none, pnl := none }

/-- The `info` dictionary returned as the fourth component of
`TradingEnv.step`: either an error tag or a reported total value. -/
inductive Info where
  | err : String → Info
  | totalValue : ℚ → Info
deriving DecidableEq

/-- The full result of `TradingEnv.step`: the post-step account state
(the mutation of `self`) together with the returned tuple
`(obs, reward, done, info)`. -/
structure StepResult where
  state : LedgerState
  obs : Observation
  reward : ℚ
  done : Bool
  info : Info
deriving DecidableEq

/-- Method `TradingEnv.step(action)`.  Actions: `0 = Hold`, `1 = Buy`, `2 = Sell`;
any other code falls through to the Hold behaviour.  The observation
(whose `price` entry is the fetched current price) is passed in explicitly;
`obs.get("price", 0)` is `obs.price.getD 0`. -/
def TradingEnv.step (s : LedgerState) (action : ℤ) (obs : Observation) : StepResult :=
  let current_price := obs.price.getD 0
  if current_price = 0 then
    { state := s, obs := obs, reward := 0, done := false,
      info := Info.err "No price data" }
  else
    let sr : LedgerState × ℚ :=
      if action = 1 then
        if 0 < s.balance then
          let amount := s.balance / current_price
          let cost := amount * current_price
          let fee := cost * (1 / 1000)
          ({ balance := 0,
             position := s.position + (amount - fee / current_price),
             entry_price := current_price }, 0)
        else (s, 0)
      else if action = 2 then
        if 0 < s.position then
          let revenue := s.position * current_price
          let fee := revenue * (1 / 1000)
          ({ balance := s.balance + (revenue - fee),
             position := 0,
             entry_price := s.entry_price },
           (current_price - s.entry_price) / s.entry_price)
        else (s, 0)
      else (s, 0)
    let total_value := sr.1.balance + sr.1.position * current_price
    { state := sr.1, obs := obs, reward := sr.2, done := false,
      info := Info.totalValue total_value }

/-- Rendering of a rational with two decimal places, modelling the python
format specifier `:.2f` used in the reasoning f-strings. -/
def fmt2 (q : ℚ) : String :=
  let cents : ℤ := round (q * 100)
  let sign : String := if cents < 0 then "-" else ""
  let n : ℕ := cents.natAbs
  sign ++ toString (n / 100) ++ "." ++ (if n % 100 < 10 then "0" else "") ++ toString (n % 100)

/-- The Buy-branch reasoning f-string of `AgentEvolverWrapper.act`. -/
def goldenCrossMsg (a b : ℚ) : String :=
  "Technical Indicator Signal: Short-term MA (" ++ fmt2 a ++
    ") crossed above Long-term MA (" ++ fmt2 b ++
    ") indicating a bullish trend (Golden Cross)."

/-- The Sell-branch reasoning f-string of `AgentEvolverWrapper.act`. -/
def deathCrossMsg (a b : ℚ) : String :=
  "Technical Indicator Signal: Short-term MA (" ++ fmt2 a ++
    ") crossed below Long-term MA (" ++ fmt2 b ++
    ") indicating a bearish trend (Death Cross)."

/-- The default reasoning of `AgentEvolverWrapper.act`. -/
def neutralMsg : String := "Market conditions are neutral."

/-- The decision dictionary returned by `AgentEvolverWrapper.act`. -/
structure Decision where
  action : String
  confidence : ℚ
  reasoning : String
  observation : Observation
deriving DecidableEq

/-- Method `AgentEvolverWrapper.act(observation)`: the heuristic fallback
strategy.  The source reads `ma_7 = observation.get("ma_7", 0)` and then
branches on `if ma_7 > ma_14: ... elif ma_7 < ma_14: ...`.  When both
stored values are finite (`some`), the comparisons are the ordinary ones.
When either stored value is NaN (`none`), both python comparisons are
false and the branch falls through to Hold.  When the key is absent
(only the empty dictionary), every lookup yields the default `0.0` and
the comparisons `0 > 0`, `0 < 0` are again both false, so the same
fallthrough to Hold models that case as well. -/
def AgentEvolverWrapper.act (observation : Observation) : Decision :=
  match observation.ma_7, observation.ma_14 with
  | some ma_7, some ma_14 =>
      if ma_7 > ma_14 then
        { action := "Buy", confidence := 85 / 100,
          reasoning := goldenCrossMsg ma_7 ma_14, observation := observation }
      else if ma_7 < ma_14 then
        { action := "Sell", confidence := 85 / 100,
          reasoning := deathCrossMsg ma_7 ma_14, observation := observation }
      else
        { action := "Hold", confidence := 0,
          reasoning := neutralMsg, observation := observation }
  | _, _ =>
      { action := "Hold", confidence := 0,
        reasoning := neutralMsg, observation := observation }

/-- The JSON body returned by the `/act` endpoint of `server.py`. -/
structure ActionResponse where
  action : String
  reasoning : String
  confidence : ℚ
  metrics : Observation
deriving DecidableEq

/-- The price override of the `/act` handler: `if request.price:` — a
python truthiness test, so the override applies only when the request
carries a price that is present and nonzero (`None` and `0.0` are falsy). -/
def Server.applyPriceOverride (obs : Observation) (reqPrice : Option ℚ) : Observation :=
  match reqPrice with
  | some p => if p = 0 then obs else { obs with price := some p }
  | none => obs

/-- The `/act` handler of `server.py`: fetch an observation, apply the
price override, call the agent, and package the response (the `observation` of the decision
is echoed as `metrics`). -/
def Server.act (fetched : Observation) (reqPrice : Option ℚ) : ActionResponse :=
  let obs := Server.applyPriceOverride fetched reqPrice
  let decision := AgentEvolverWrapper.act obs
  { action := decision.action, reasoning := decision.reasoning,
    confidence := decision.confidence, metrics := decision.observation }

/-- Pandas `series.diff()` on the close series: the first entry is NaN (`none`),
entry `i+1` is `close[i+1] - close[i]`. -/
def diffList (s : List ℚ) : List (Option ℚ) :=
  match s with
  | [] => []
  | h :: t => none :: List.zipWith (fun a b => some (b - a)) (h :: t) t

/-- Pandas `delta.where(delta > 0, 0)`: the positive part of each difference;
a NaN entry fails the comparison and becomes `0`. -/
def gainList (closes : List ℚ) : List ℚ :=
  (diffList closes).map (fun d =>
    match d with
    | none => 0
    | some x => if 0 < x then x else 0)

/-- Pandas `(-delta.where(delta < 0, 0))`: the negated negative part of each
difference; a NaN entry fails the comparison and becomes `0`. -/
def lossList (closes : List ℚ) : List ℚ :=
  (diffList closes).map (fun d =>
    match d with
    | none => 0
    | some x => if x < 0 then -x else 0)

/-- Pandas `series.rolling(window=w).mean().iloc[-1]`: NaN (`none`) when the
series is shorter than the window, otherwise the arithmetic mean of the
last `w` entries. -/
def TradingEnv.rollingMeanLast (w : ℕ) (s : List ℚ) : Option ℚ :=
  if 1 ≤ w ∧ w ≤ s.length then some ((s.drop (s.length - w)).sum / (w : ℚ))
  else none

/-- The value of `_calculate_rsi`: either a finite number or a pandas NaN. -/
inductive RsiVal where
  | val : ℚ → RsiVal
  | nan : RsiVal
deriving DecidableEq

/-- Method `TradingEnv._calculate_rsi(series, 14)`.  `rs = gain / loss` is an
IEEE division of the two rolling means: when `loss > 0` it is finite and
`rsi = 100 - 100/(1+rs)`; when `loss = 0` and `gain > 0` it is `+inf` and
`100 - 100/(1+inf) = 100`; when both are `0` it is `0/0 = NaN`, which
propagates.  A NaN rolling mean (series shorter than the window) also
propagates as NaN. -/
def TradingEnv.calculateRsi (closes : List ℚ) : RsiVal :=
  match TradingEnv.rollingMeanLast 14 (gainList closes),
        TradingEnv.rollingMeanLast 14 (lossList closes) with
  | some gain, some loss =>
      if 0 < loss then RsiVal.val (100 - 100 / (1 + gain / loss))
      else if 0 < gain then RsiVal.val 100
      else RsiVal.nan
  | _, _ => RsiVal.nan

/-- Conversion of an RSI value into an observation entry. -/
def RsiVal.toOption : RsiVal → Option ℚ
  | RsiVal.val q => some q
  | RsiVal.nan => none

/-- Method `TradingEnv._get_observation`, given the fetched close series: the
indicator fields together with the account snapshot.  An empty series
(the upstream failure path) yields the empty dictionary. -/
def TradingEnv.getObservation (s : LedgerState) (closes : List ℚ) : Observation :=
  match closes.getLast? with
  | none => emptyObservation
  | some current_price =>
    { price := some current_price
      ma_7 := TradingEnv.rollingMeanLast 7 closes
      ma_14 := TradingEnv.rollingMeanLast 14 closes
      rsi := (TradingEnv.calculateRsi closes).toOption
      balance := some s.balance
      position := some s.position
      pnl := some (if s.position = 0 then 0
                   else (current_price - s.entry_price) * s.position) }

/-- The trailing window of width `w` at the end of a list. -/
def lastWin (w : ℕ) (s : List ℚ) : List ℚ := s.drop (s.length - w)

/-- The trailing 14-period window of losses contains no close-to-close loss. -/
def noLossB (closes : List ℚ) : Bool :=
  (lastWin 14 (lossList closes)).all (fun x => decide (x = 0))

/-- The trailing 14-period window of gains contains a strict gain. -/
def someGainB (closes : List ℚ) : Bool :=
  (lastWin 14 (gainList closes)).any (fun x => decide (0 < x))

/-- The ledger invariant claimed by the spec: exactly one of `balance > 0`
and `position > 0` holds, or both fields are zero. -/
def ledgerInvariant (s : LedgerState) : Prop :=
  (0 < s.balance ∧ s.position = 0) ∨ (s.balance = 0 ∧ 0 < s.position) ∨
    (s.balance = 0 ∧ s.position = 0)

instance (s : LedgerState) : Decidable (ledgerInvariant s) := by
  unfold ledgerInvariant; infer_instance

/-- States of the simulated ledger reachable from construction (with a
nonnegative initial balance) or `reset` by `step` calls whose fetched
observations satisfy `ok` on the looked-up price. -/
inductive ReachableVia (ok : ℚ → Prop) : LedgerState → Prop where
  | init : ∀ ib : ℚ, 0 ≤ ib → ReachableVia ok (TradingEnv.initState ib)
  | next : ∀ (s : LedgerState) (a : ℤ) (obs : Observation),
      ReachableVia ok s → ok (obs.price.getD 0) →
      ReachableVia ok (TradingEnv.step s a obs).state

/-- An observation carrying the single concrete price 100. -/
def obs100 : Observation := { emptyObservation with price := some 100 }

/-- An observation carrying the single concrete price 110. -/
def obs110 : Observation := { emptyObservation with price := some 110 }

/-- An observation as fetched, carrying price 50. -/
def obs50 : Observation := { emptyObservation with price := some 50 }

/-- An observation whose short MA (5) exceeds its long MA (3). -/
def obsGolden : Observation :=
  { emptyObservation with ma_7 := some 5, ma_14 := some 3 }

theorem act_observation_eq (obs : Observation) :
    (AgentEvolverWrapper.act obs).observation = obs := by
  cases h7 : obs.ma_7 with
  | none => simp [AgentEvolverWrapper.act, h7]
  | some a =>
      cases h14 : obs.ma_14 with
      | none => simp [AgentEvolverWrapper.act, h7, h14]
      | some b =>
          simp only [AgentEvolverWrapper.act, h7, h14]
          split_ifs <;> rfl

/-- C2: the heuristic decision rule of `AgentEvolverWrapper.act`: when
both moving averages are finite and the short one is strictly greater,
the agent returns Buy with confidence 0.85 and the Golden-Cross
reasoning interpolating the two MA values; when strictly smaller, Sell
with confidence 0.85 and the Death-Cross reasoning; and otherwise — the
two values equal, or either value missing/NaN (in python every
comparison with NaN is false) — Hold with confidence 0 and the
neutral-market reasoning. -/
theorem c2_decision_rule (obs : Observation) :
    (∀ a b : ℚ, obs.ma_7 = some a → obs.ma_14 = some b → a > b →
      AgentEvolverWrapper.act obs =
        { action := "Buy", confidence := 85 / 100,
          reasoning := goldenCrossMsg a b, observation := obs }) ∧
    (∀ a b : ℚ, obs.ma_7 = some a → obs.ma_14 = some b → a < b →
      AgentEvolverWrapper.act obs =
        { action := "Sell", confidence := 85 / 100,
          reasoning := deathCrossMsg a b, observation := obs }) ∧
    (obs.ma_7 = none ∨ obs.ma_14 = none ∨ obs.ma_7 = obs.ma_14 →
      AgentEvolverWrapper.act obs =
        { action := "Hold", confidence := 0,
          reasoning := neutralMsg, observation := obs }) := by
  refine ⟨?_, ?_, ?_⟩
  · intro a b h7 h14 hab
    unfold AgentEvolverWrapper.act
    rw [h7, h14]
    dsimp only
    rw [if_pos hab]
  · intro a b h7 h14 hab
    unfold AgentEvolverWrapper.act
    rw [h7, h14]
    dsimp only
    rw [if_neg (lt_asymm hab), if_pos hab]
  · intro h
    unfold AgentEvolverWrapper.act
    rcases h with h | h | h
    · rw [h]
    · rw [h]
      cases h7 : obs.ma_7 <;> rfl
    · cases h7 : obs.ma_7 with
      | none => rfl
      | some a =>
          rw [← h, h7]
          dsimp only
          rw [if_neg (lt_irrefl a), if_neg (lt_irrefl a)]

/-- Witness for C2: a concrete observation with finite short MA 5 and
finite long MA 3 takes the Buy branch. -/
theorem c2_witness :
    obsGolden.ma_7 = some 5 ∧ obsGolden.ma_14 = some 3 ∧ (5 : ℚ) > 3 ∧
    AgentEvolverWrapper.act obsGolden =
      { action := "Buy", confidence := 85 / 100,
        reasoning := goldenCrossMsg 5 3, observation := obsGolden } :=
  ⟨rfl, rfl, by norm_num,
    (c2_decision_rule obsGolden).1 5 3 rfl rfl (by norm_num)⟩

/-- C3: from balance 1000, position 0, a Buy at price 100 yields position
9.99 = 999/100, balance 0 and entry price 100; a subsequent Sell at price
110 yields balance 1098.9 − 1.0989 = 10989/10 − 10989/10000, position 0,
and a reward equal to the fractional return (110 − 100)/100 = 1/10. -/
theorem c3_buy_sell_scenario :
    (TradingEnv.step (TradingEnv.initState 1000) 1 obs100).state =
      { balance := 0, position := 999 / 100, entry_price := 100 } ∧
    (TradingEnv.step (TradingEnv.step (TradingEnv.initState 1000) 1 obs100).state
        2 obs110).state.balance = 10989 / 10 - 10989 / 10000 ∧
    (TradingEnv.step (TradingEnv.step (TradingEnv.initState 1000) 1 obs100).state
        2 obs110).state.position = 0 ∧
    (TradingEnv.step (TradingEnv.step (TradingEnv.initState 1000) 1 obs100).state
        2 obs110).reward = 1 / 10 := by
  refine ⟨?_, ?_, ?_, ?_⟩ <;>
    norm_num [TradingEnv.step, TradingEnv.initState, obs100, obs110, emptyObservation]

/-- C4: when the looked-up price is zero (in particular when the `price`
key is missing), `step` returns the ledger state unchanged with reward 0
and the explicit "No price data" error tag, for every action. -/
theorem c4_no_price_data (s : LedgerState) (a : ℤ) (obs : Observation)
    (h : obs.price.getD 0 = 0) :
    TradingEnv.step s a obs =
      { state := s, obs := obs, reward := 0, done := false,
        info := Info.err "No price data" } := by
  unfold TradingEnv.step
  simp [h]

/-- Witness for C4 at the empty observation and the Buy action. -/
theorem c4_witness :
    emptyObservation.price.getD 0 = 0 ∧
    TradingEnv.step (TradingEnv.initState 1000) 1 emptyObservation =
      { state := TradingEnv.initState 1000, obs := emptyObservation,
        reward := 0, done := false, info := Info.err "No price data" } :=
  ⟨rfl, c4_no_price_data _ _ _ rfl⟩

/-- Counterexample to C5 as stated: a request supplying the explicit
price 0 does not override the fetched price (the handler test
`if request.price:` is a truthiness test, and 0.0 is falsy), so the
metrics keep the fetched price 50 rather than the supplied 0. -/
theorem c5_counterexample :
    (Server.act obs50 (some 0)).metrics.price = some 50 ∧
    (Server.act obs50 (some 0)).metrics.price ≠ some 0 :=
  ⟨rfl, by decide⟩

/-- C5 amended: a supplied nonzero price overrides the `price` field only,
all other fields retaining their fetched values; a request without a
price, or with the (falsy) price 0, leaves the observation entirely as
fetched. -/
theorem c5_price_override_amended (fetched : Observation) (p : ℚ) :
    (p ≠ 0 → (Server.act fetched (some p)).metrics =
      { fetched with price := some p }) ∧
    (Server.act fetched (some 0)).metrics = fetched ∧
    (Server.act fetched none).metrics = fetched := by
  refine ⟨fun h => ?_, ?_, ?_⟩
  · simp [Server.act, Server.applyPriceOverride, act_observation_eq, h]
  · simp [Server.act, Server.applyPriceOverride, act_observation_eq]
  · simp [Server.act, Server.applyPriceOverride, act_observation_eq]

/-- Witness for C5 (amended): supplying the nonzero price 7 overrides the
fetched price 50 and nothing else. -/
theorem c5_witness :
    (7 : ℚ) ≠ 0 ∧
    (Server.act obs50 (some 7)).metrics = { obs50 with price := some 7 } :=
  ⟨by norm_num, (c5_price_override_amended obs50 7).1 (by norm_num)⟩

/-- Counterexample to C6 as stated: with no usable price the `step` result
carries only the "No price data" error tag, not a `total_value` entry, so
not every apply call reports the total portfolio value. -/
theorem c6_counterexample :
    (TradingEnv.step (TradingEnv.initState 1000) 0 emptyObservation).info =
      Info.err "No price data" ∧
    (TradingEnv.step (TradingEnv.initState 1000) 0 emptyObservation).info ≠
      Info.totalValue
        ((TradingEnv.step (TradingEnv.initState 1000) 0 emptyObservation).state.balance
          + (TradingEnv.step (TradingEnv.initState 1000) 0 emptyObservation).state.position
            * emptyObservation.price.getD 0) :=
  ⟨rfl, by decide⟩

/-- C6 amended: whenever the looked-up price is nonzero, the `step` result
reports `total_value = balance + position * current_price` computed on the
post-step state, for every ledger state and every action code. -/
theorem c6_total_value_amended (s : LedgerState) (a : ℤ) (obs : Observation)
    (h : obs.price.getD 0 ≠ 0) :
    (TradingEnv.step s a obs).info =
      Info.totalValue ((TradingEnv.step s a obs).state.balance
        + (TradingEnv.step s a obs).state.position * obs.price.getD 0) := by
  unfold TradingEnv.step
  simp [h]

/-- Witness for C6 (amended) at a Buy step with price 100. -/
theorem c6_witness :
    obs100.price.getD 0 ≠ 0 ∧
    (TradingEnv.step (TradingEnv.initState 1000) 1 obs100).info =
      Info.totalValue ((TradingEnv.step (TradingEnv.initState 1000) 1 obs100).state.balance
        + (TradingEnv.step (TradingEnv.initState 1000) 1 obs100).state.position
          * obs100.price.getD 0) :=
  ⟨by decide, c6_total_value_amended _ _ _ (by decide)⟩

/-- C8: on the empty observation (the degraded result of an upstream
fetch failure) every lookup defaults to 0, both MA comparisons fail, and
the agent returns Hold with confidence 0 and the neutral reasoning. -/
theorem c8_empty_observation_holds :
    AgentEvolverWrapper.act emptyObservation =
      { action := "Hold", confidence := 0, reasoning := neutralMsg,
        observation := emptyObservation } := by
  rfl

theorem step_price_zero (s : LedgerState) (a : ℤ) (obs : Observation)
    (h : obs.price.getD 0 = 0) :
    TradingEnv.step s a obs =
      { state := s, obs := obs, reward := 0, done := false,
        info := Info.err "No price data" } := by
  unfold TradingEnv.step
  simp [h]

theorem step_state_hold (s : LedgerState) (a : ℤ) (obs : Observation)
    (ha1 : a ≠ 1) (ha2 : a ≠ 2) : (TradingEnv.step s a obs).state = s := by
  unfold TradingEnv.step
  by_cases hp : obs.price.getD 0 = 0 <;> simp [hp, ha1, ha2]

theorem step_state_buy (s : LedgerState) (obs : Observation)
    (hp : obs.price.getD 0 ≠ 0) (hb : 0 < s.balance) :
    (TradingEnv.step s 1 obs).state =
      { balance := 0,
        position := s.position + (s.balance / obs.price.getD 0
          - s.balance / obs.price.getD 0 * obs.price.getD 0 * (1 / 1000)
            / obs.price.getD 0),
        entry_price := obs.price.getD 0 } := by
  unfold TradingEnv.step
  simp [hp, hb]

theorem step_state_buy_noop (s : LedgerState) (obs : Observation)
    (hp : obs.price.getD 0 ≠ 0) (hb : ¬ 0 < s.balance) :
    (TradingEnv.step s 1 obs).state = s := by
  unfold TradingEnv.step
  simp [hp, hb]

theorem step_state_sell (s : LedgerState) (obs : Observation)
    (hp : obs.price.getD 0 ≠ 0) (hpos : 0 < s.position) :
    (TradingEnv.step s 2 obs).state =
      { balance := s.balance + (s.position * obs.price.getD 0
          - s.position * obs.price.getD 0 * (1 / 1000)),
        position := 0,
        entry_price := s.entry_price } := by
  unfold TradingEnv.step
  simp [hp, hpos]

theorem step_state_sell_noop (s : LedgerState) (obs : Observation)
    (hp : obs.price.getD 0 ≠ 0) (hpos : ¬ 0 < s.position) :
    (TradingEnv.step s 2 obs).state = s := by
  unfold TradingEnv.step
  simp [hp, hpos]

theorem step_preserves_ledgerInvariant (s : LedgerState) (a : ℤ) (obs : Observation)
    (hp : 0 ≤ obs.price.getD 0) (h : ledgerInvariant s) :
    ledgerInvariant (TradingEnv.step s a obs).state := by
  by_cases hp0 : obs.price.getD 0 = 0
  · rw [step_price_zero s a obs hp0]
    exact h
  · have hppos : 0 < obs.price.getD 0 := lt_of_le_of_ne hp (Ne.symm hp0)
    by_cases ha1 : a = 1
    · subst ha1
      by_cases hb : 0 < s.balance
      · rw [step_state_buy s obs hp0 hb]
        have hpos0 : s.position = 0 := by
          rcases h with ⟨h1, h2⟩ | ⟨h1, h2⟩ | ⟨h1, h2⟩
          · exact h2
          · exact absurd hb (by rw [h1]; exact lt_irrefl 0)
          · exact h2
        unfold ledgerInvariant
        right; left
        refine ⟨rfl, ?_⟩
        dsimp only
        rw [hpos0, zero_add, div_mul_cancel₀ _ hp0, ← sub_div]
        exact div_pos (by linarith) hppos
      · rw [step_state_buy_noop s obs hp0 hb]
        exact h
    · by_cases ha2 : a = 2
      · subst ha2
        by_cases hpos : 0 < s.position
        · rw [step_state_sell s obs hp0 hpos]
          have hbal0 : s.balance = 0 := by
            rcases h with ⟨h1, h2⟩ | ⟨h1, h2⟩ | ⟨h1, h2⟩
            · exact absurd hpos (by rw [h2]; exact lt_irrefl 0)
            · exact h1
            · exact h1
          unfold ledgerInvariant
          left
          refine ⟨?_, rfl⟩
          dsimp only
          have ht : 0 < s.position * obs.price.getD 0 := mul_pos hpos hppos
          rw [hbal0, zero_add]
          linarith
        · rw [step_state_sell_noop s obs hp0 hpos]
          exact h
      · rw [step_state_hold s a obs ha1 ha2]
        exact h

/-- C1: along every trace of `step` calls from construction (with a
nonnegative initial balance) or `reset`, with the fetched market prices
nonnegative, the ledger always satisfies: exactly one of `balance > 0`
and `position > 0` holds, or both are zero — never both positive. -/
theorem c1_ledger_exclusive (s : LedgerState)
    (h : ReachableVia (fun p => 0 ≤ p) s) : ledgerInvariant s := by
  induction h with
  | init ib hib =>
      unfold ledgerInvariant TradingEnv.initState
      rcases lt_or_eq_of_le hib with h1 | h1
      · left; exact ⟨h1, rfl⟩
      · right; right; exact ⟨h1.symm, rfl⟩
  | next s a obs hr hok ih => exact step_preserves_ledgerInvariant s a obs hok ih

/-- Witness for C1 at the construction state with balance 1000. -/
theorem c1_witness :
    ReachableVia (fun p => 0 ≤ p) (TradingEnv.initState 1000) ∧
    ledgerInvariant (TradingEnv.initState 1000) := by
  have h : ReachableVia (fun p => 0 ≤ p) (TradingEnv.initState 1000) :=
    ReachableVia.init 1000 (by norm_num)
  exact ⟨h, c1_ledger_exclusive _ h⟩

/-- C9: in every ledger state reachable by steps whose observed prices are
nonzero, a positive position implies a nonzero entry price, so the
realized-return division of the Sell branch never divides by zero. -/
theorem c9_entry_price_nonzero (s : LedgerState)
    (h : ReachableVia (fun p => p ≠ 0) s) :
    0 < s.position → s.entry_price ≠ 0 := by
  induction h with
  | init ib hib =>
      intro hpos
      simp [TradingEnv.initState] at hpos
  | next s a obs hr hok ih =>
      by_cases ha1 : a = 1
      · subst ha1
        by_cases hb : 0 < s.balance
        · rw [step_state_buy s obs hok hb]
          intro _
          exact hok
        · rw [step_state_buy_noop s obs hok hb]
          exact ih
      · by_cases ha2 : a = 2
        · subst ha2
          by_cases hpos : 0 < s.position
          · rw [step_state_sell s obs hok hpos]
            intro hc
            simp at hc
          · rw [step_state_sell_noop s obs hok hpos]
            exact ih
        · rw [step_state_hold s a obs ha1 ha2]
          exact ih

/-- Witness for C9: after a Buy at price 100 from the construction state,
the position is 9.99 > 0 and the entry price 100 is nonzero. -/
theorem c9_witness :
    ReachableVia (fun p => p ≠ 0)
      (TradingEnv.step (TradingEnv.initState 1000) 1 obs100).state ∧
    0 < (TradingEnv.step (TradingEnv.initState 1000) 1 obs100).state.position ∧
    (TradingEnv.step (TradingEnv.initState 1000) 1 obs100).state.entry_price ≠ 0 := by
  have h : ReachableVia (fun p => p ≠ 0)
      (TradingEnv.step (TradingEnv.initState 1000) 1 obs100).state :=
    ReachableVia.next _ 1 obs100 (ReachableVia.init 1000 (by norm_num))
      (by norm_num [obs100, emptyObservation])
  have hpos : 0 < (TradingEnv.step (TradingEnv.initState 1000) 1 obs100).state.position := by
    norm_num [TradingEnv.step, TradingEnv.initState, obs100, emptyObservation]
  exact ⟨h, hpos, c9_entry_price_nonzero _ h hpos⟩

/-- C10: from a state with a positive position and a usable price, a Sell
zeroes the position and credits the balance with the fee-reduced revenue,
but leaves `entry_price` unchanged (stale); `reset` sets `entry_price`
back to 0, and no `step` with a usable price ever changes a nonzero
`entry_price` to 0. -/
theorem c10_sell_leaves_entry_price (s : LedgerState) (obs : Observation)
    (a : ℤ) (ib : ℚ) (hpos : 0 < s.position) (hp : obs.price.getD 0 ≠ 0) :
    (TradingEnv.step s 2 obs).state.position = 0 ∧
    (TradingEnv.step s 2 obs).state.balance =
      s.balance + (s.position * obs.price.getD 0
        - s.position * obs.price.getD 0 * (1 / 1000)) ∧
    (TradingEnv.step s 2 obs).state.entry_price = s.entry_price ∧
    (TradingEnv.reset ib).entry_price = 0 ∧
    (s.entry_price ≠ 0 → (TradingEnv.step s a obs).state.entry_price ≠ 0) := by
  rw [step_state_sell s obs hp hpos]
  refine ⟨rfl, rfl, rfl, rfl, ?_⟩
  intro he
  by_cases ha1 : a = 1
  · subst ha1
    rcases em (0 < s.balance) with hb | hb
    · rw [step_state_buy s obs hp hb]
      exact hp
    · rw [step_state_buy_noop s obs hp hb]
      exact he
  · by_cases ha2 : a = 2
    · subst ha2
      rw [step_state_sell s obs hp hpos]
      exact he
    · rw [step_state_hold s a obs ha1 ha2]
      exact he

/-- Witness for C10: a Sell at price 110 from the post-Buy state keeps the
stale entry price 100. -/
theorem c10_witness :
    0 < (⟨0, 999 / 100, 100⟩ : LedgerState).position ∧
    obs110.price.getD 0 ≠ 0 ∧
    ((TradingEnv.step ⟨0, 999 / 100, 100⟩ 2 obs110).state.position = 0 ∧
     (TradingEnv.step ⟨0, 999 / 100, 100⟩ 2 obs110).state.balance =
       (⟨0, 999 / 100, 100⟩ : LedgerState).balance
         + ((⟨0, 999 / 100, 100⟩ : LedgerState).position * obs110.price.getD 0
           - (⟨0, 999 / 100, 100⟩ : LedgerState).position * obs110.price.getD 0
             * (1 / 1000)) ∧
     (TradingEnv.step ⟨0, 999 / 100, 100⟩ 2 obs110).state.entry_price =
       (⟨0, 999 / 100, 100⟩ : LedgerState).entry_price ∧
     (TradingEnv.reset 1000).entry_price = 0 ∧
     ((⟨0, 999 / 100, 100⟩ : LedgerState).entry_price ≠ 0 →
       (TradingEnv.step ⟨0, 999 / 100, 100⟩ 0 obs110).state.entry_price ≠ 0)) :=
  ⟨by norm_num, by norm_num [obs110, emptyObservation],
    c10_sell_leaves_entry_price ⟨0, 999 / 100, 100⟩ obs110 0 1000
      (by norm_num) (by norm_num [obs110, emptyObservation])⟩

theorem rollingMeanLast_eq (w : ℕ) (s : List ℚ) (h1 : 1 ≤ w) (h2 : w ≤ s.length) :
    TradingEnv.rollingMeanLast w s = some ((lastWin w s).sum / (w : ℚ)) := by
  unfold TradingEnv.rollingMeanLast lastWin
  rw [if_pos ⟨h1, h2⟩]

theorem lastWin_length (w : ℕ) (s : List ℚ) (h : w ≤ s.length) :
    (lastWin w s).length = w := by
  simp only [lastWin, List.length_drop]
  omega

theorem mem_of_mem_lastWin (w : ℕ) (s : List ℚ) (x : ℚ) (hx : x ∈ lastWin w s) :
    x ∈ s := by
  simp only [lastWin] at hx
  exact List.drop_subset _ _ hx

theorem diffList_length (s : List ℚ) : (diffList s).length = s.length := by
  cases s with
  | nil => rfl
  | cons h t =>
      simp only [diffList, List.length_cons, List.length_zipWith]
      omega

theorem gainList_length (closes : List ℚ) :
    (gainList closes).length = closes.length := by
  simp only [gainList, List.length_map]
  exact diffList_length closes

theorem lossList_length (closes : List ℚ) :
    (lossList closes).length = closes.length := by
  simp only [lossList, List.length_map]
  exact diffList_length closes

theorem gainList_nonneg (closes : List ℚ) : ∀ x ∈ gainList closes, 0 ≤ x := by
  intro x hx
  simp only [gainList, List.mem_map] at hx
  obtain ⟨d, _, rfl⟩ := hx
  cases d with
  | none => exact le_refl 0
  | some a =>
      dsimp only
      split_ifs with h
      · exact le_of_lt h
      · exact le_refl 0

theorem lossList_nonneg (closes : List ℚ) : ∀ x ∈ lossList closes, 0 ≤ x := by
  intro x hx
  simp only [lossList, List.mem_map] at hx
  obtain ⟨d, _, rfl⟩ := hx
  cases d with
  | none => exact le_refl 0
  | some a =>
      dsimp only
      split_ifs with h
      · linarith
      · exact le_refl 0

theorem calculateRsi_eq (closes : List ℚ) (hn : 14 ≤ closes.length) :
    TradingEnv.calculateRsi closes =
      (if 0 < (lastWin 14 (lossList closes)).sum / (14 : ℚ) then
        RsiVal.val (100 - 100 / (1 + ((lastWin 14 (gainList closes)).sum / (14 : ℚ))
          / ((lastWin 14 (lossList closes)).sum / (14 : ℚ))))
      else if 0 < (lastWin 14 (gainList closes)).sum / (14 : ℚ) then RsiVal.val 100
      else RsiVal.nan) := by
  have hg := rollingMeanLast_eq 14 (gainList closes) (by norm_num)
    (by rw [gainList_length]; omega)
  have hl := rollingMeanLast_eq 14 (lossList closes) (by norm_num)
    (by rw [lossList_length]; omega)
  unfold TradingEnv.calculateRsi
  rw [hg, hl]
  norm_num

theorem calculateRsi_nan_of_flat (closes : List ℚ) (hn : 14 ≤ closes.length)
    (hl : ∀ x ∈ lastWin 14 (lossList closes), x = 0)
    (hg : ∀ x ∈ lastWin 14 (gainList closes), x = 0) :
    TradingEnv.calculateRsi closes = RsiVal.nan := by
  rw [calculateRsi_eq closes hn, List.sum_eq_zero hl, List.sum_eq_zero hg]
  norm_num

/-- C7 amended: for every close series of length at least 14, `ma_7` and
`ma_14` are the arithmetic means of the trailing 7- and 14-element
windows; every finite RSI value lies in [0, 100]; when the trailing
window has no loss but has a gain the RSI is exactly 100 (via the IEEE
`gain/0 = +inf` route — the source has no explicit special case); and
when the window has neither loss nor gain the RSI is NaN (the `0/0`
division), not a value in [0, 100]. -/
theorem c7_rolling_indicators_amended (closes : List ℚ) (hn : 14 ≤ closes.length) :
    (TradingEnv.rollingMeanLast 7 closes
        = some ((lastWin 7 closes).sum / ((lastWin 7 closes).length : ℚ))
      ∧ (lastWin 7 closes).length = 7) ∧
    (TradingEnv.rollingMeanLast 14 closes
        = some ((lastWin 14 closes).sum / ((lastWin 14 closes).length : ℚ))
      ∧ (lastWin 14 closes).length = 14) ∧
    (∀ q : ℚ, TradingEnv.calculateRsi closes = RsiVal.val q → 0 ≤ q ∧ q ≤ 100) ∧
    (noLossB closes = true → someGainB closes = true →
      TradingEnv.calculateRsi closes = RsiVal.val 100) ∧
    (noLossB closes = true → someGainB closes = false →
      TradingEnv.calculateRsi closes = RsiVal.nan) := by
  have hG0 : 0 ≤ (lastWin 14 (gainList closes)).sum / (14 : ℚ) :=
    div_nonneg
      (List.sum_nonneg (fun x hx =>
        gainList_nonneg closes x (mem_of_mem_lastWin _ _ _ hx)))
      (by norm_num)
  have hL0 : 0 ≤ (lastWin 14 (lossList closes)).sum / (14 : ℚ) :=
    div_nonneg
      (List.sum_nonneg (fun x hx =>
        lossList_nonneg closes x (mem_of_mem_lastWin _ _ _ hx)))
      (by norm_num)
  refine ⟨⟨?_, ?_⟩, ⟨?_, ?_⟩, ?_, ?_, ?_⟩
  · rw [rollingMeanLast_eq 7 closes (by norm_num) (by omega),
      lastWin_length 7 closes (by omega)]
  · exact lastWin_length 7 closes (by omega)
  · rw [rollingMeanLast_eq 14 closes (by norm_num) (by omega),
      lastWin_length 14 closes (by omega)]
  · exact lastWin_length 14 closes (by omega)
  · intro q hq
    rw [calculateRsi_eq closes hn] at hq
    by_cases h1 : 0 < (lastWin 14 (lossList closes)).sum / (14 : ℚ)
    · rw [if_pos h1] at hq
      injection hq with hq'
      subst hq'
      have hGL : 0 ≤ (lastWin 14 (gainList closes)).sum / (14 : ℚ)
          / ((lastWin 14 (lossList closes)).sum / (14 : ℚ)) :=
        div_nonneg hG0 (le_of_lt h1)
      have hd : (1 : ℚ) ≤ 1 + (lastWin 14 (gainList closes)).sum / (14 : ℚ)
          / ((lastWin 14 (lossList closes)).sum / (14 : ℚ)) := by linarith
      have hle : (100 : ℚ) / (1 + (lastWin 14 (gainList closes)).sum / (14 : ℚ)
          / ((lastWin 14 (lossList closes)).sum / (14 : ℚ))) ≤ 100 :=
        div_le_self (by norm_num) hd
      have hpos : (0 : ℚ) < 100 / (1 + (lastWin 14 (gainList closes)).sum / (14 : ℚ)
          / ((lastWin 14 (lossList closes)).sum / (14 : ℚ))) :=
        div_pos (by norm_num) (by linarith)
      constructor
      · linarith
      · linarith
    · rw [if_neg h1] at hq
      by_cases h2 : 0 < (lastWin 14 (gainList closes)).sum / (14 : ℚ)
      · rw [if_pos h2] at hq
        injection hq with hq'
        subst hq'
        norm_num
      · rw [if_neg h2] at hq
        exact RsiVal.noConfusion hq
  · intro hnl hsg
    simp only [noLossB, List.all_eq_true, decide_eq_true_eq] at hnl
    simp only [someGainB, List.any_eq_true, decide_eq_true_eq] at hsg
    obtain ⟨x, hx, hxpos⟩ := hsg
    have hLz : (lastWin 14 (lossList closes)).sum / (14 : ℚ) = 0 := by
      rw [List.sum_eq_zero hnl, zero_div]
    have hxle : x ≤ (lastWin 14 (gainList closes)).sum :=
      List.single_le_sum
        (fun y hy => gainList_nonneg closes y (mem_of_mem_lastWin _ _ _ hy)) x hx
    have hGpos : 0 < (lastWin 14 (gainList closes)).sum / (14 : ℚ) :=
      div_pos (lt_of_lt_of_le hxpos hxle) (by norm_num)
    rw [calculateRsi_eq closes hn, hLz, if_neg (lt_irrefl 0), if_pos hGpos]
  · intro hnl hng
    simp only [noLossB, List.all_eq_true, decide_eq_true_eq] at hnl
    have hngall : ∀ x ∈ lastWin 14 (gainList closes), x = 0 := by
      intro x hx
      have hxn : ¬ (0 : ℚ) < x := by
        intro hxpos
        have : someGainB closes = true := by
          simp only [someGainB, List.any_eq_true, decide_eq_true_eq]
          exact ⟨x, hx, hxpos⟩
        rw [this] at hng
        exact Bool.noConfusion hng
      exact le_antisymm (not_lt.mp hxn)
        (gainList_nonneg closes x (mem_of_mem_lastWin _ _ _ hx))
    exact calculateRsi_nan_of_flat closes hn hnl hngall

theorem zipWith_diff_replicate (m : ℕ) (c : ℚ) :
    List.zipWith (fun a b => some (b - a))
        (c :: List.replicate m c) (List.replicate m c)
      = List.replicate m (some (0 : ℚ)) := by
  induction m with
  | zero => rfl
  | succ k ih =>
      rw [List.replicate_succ, List.zipWith_cons_cons, sub_self, ih,
        List.replicate_succ]

theorem diffList_replicate (m : ℕ) (c : ℚ) :
    diffList (List.replicate (m + 1) c) = none :: List.replicate m (some (0 : ℚ)) := by
  rw [List.replicate_succ]
  simp only [diffList]
  rw [zipWith_diff_replicate]

theorem lossList_replicate_zero (m : ℕ) (c : ℚ) :
    ∀ x ∈ lossList (List.replicate (m + 1) c), x = 0 := by
  intro x hx
  simp only [lossList, diffList_replicate] at hx
  rcases List.mem_map.mp hx with ⟨d, hd, rfl⟩
  rcases List.mem_cons.mp hd with rfl | hd2
  · rfl
  · have hde : d = some 0 := List.eq_of_mem_replicate hd2
    subst hde
    norm_num

theorem gainList_replicate_zero (m : ℕ) (c : ℚ) :
    ∀ x ∈ gainList (List.replicate (m + 1) c), x = 0 := by
  intro x hx
  simp only [gainList, diffList_replicate] at hx
  rcases List.mem_map.mp hx with ⟨d, hd, rfl⟩
  rcases List.mem_cons.mp hd with rfl | hd2
  · rfl
  · have hde : d = some 0 := List.eq_of_mem_replicate hd2
    subst hde
    norm_num

/-- Counterexample to C7 as stated: a constant series of 15 closes at 100
has length at least 14 and no close-to-close loss in the trailing window,
yet the computed RSI is NaN (the `avgGain/avgLoss = 0/0` division) — it is
neither 100 nor a value in [0, 100], and no special-casing intervenes. -/
theorem c7_counterexample :
    14 ≤ (List.replicate 15 (100 : ℚ)).length ∧
    noLossB (List.replicate 15 (100 : ℚ)) = true ∧
    TradingEnv.calculateRsi (List.replicate 15 (100 : ℚ)) = RsiVal.nan ∧
    RsiVal.nan ≠ RsiVal.val 100 := by
  have hl : ∀ x ∈ lastWin 14 (lossList (List.replicate 15 (100 : ℚ))), x = 0 :=
    fun x hx => lossList_replicate_zero 14 100 x (mem_of_mem_lastWin _ _ _ hx)
  have hg : ∀ x ∈ lastWin 14 (gainList (List.replicate 15 (100 : ℚ))), x = 0 :=
    fun x hx => gainList_replicate_zero 14 100 x (mem_of_mem_lastWin _ _ _ hx)
  refine ⟨by simp, ?_, ?_, by simp⟩
  · simp only [noLossB, List.all_eq_true, decide_eq_true_eq]
    exact hl
  · exact calculateRsi_nan_of_flat _ (by simp) hl hg

/-- A strictly increasing series of 15 closes. -/
def closes15 : List ℚ :=
  [0, 1, 2, 3, 4, 5, 6, 7, 8, 9, 10, 11, 12, 13, 14]

/-- Witness for C7 (amended) on a strictly increasing series of 15 closes. -/
theorem c7_witness :
    14 ≤ closes15.length ∧
    ((TradingEnv.rollingMeanLast 7 closes15
        = some ((lastWin 7 closes15).sum / ((lastWin 7 closes15).length : ℚ))
      ∧ (lastWin 7 closes15).length = 7) ∧
    (TradingEnv.rollingMeanLast 14 closes15
        = some ((lastWin 14 closes15).sum / ((lastWin 14 closes15).length : ℚ))
      ∧ (lastWin 14 closes15).length = 14) ∧
    (∀ q : ℚ, TradingEnv.calculateRsi closes15 = RsiVal.val q → 0 ≤ q ∧ q ≤ 100) ∧
    (noLossB closes15 = true → someGainB closes15 = true →
      TradingEnv.calculateRsi closes15 = RsiVal.val 100) ∧
    (noLossB closes15 = true → someGainB closes15 = false →
      TradingEnv.calculateRsi closes15 = RsiVal.nan)) :=
  ⟨by decide, c7_rolling_indicators_amended closes15 (by decide)⟩
